import Mathlib

/-!
Verification of `public/site.js`, the single client-side enhancement script
of this repository.  The script is shallowly embedded: DOM attribute state
is modelled explicitly (attribute text as `List Char`, token lists as
`List (List Char)`), event handlers become pure state-transition functions,
and scheduled effects (timeouts) are recorded as data in the handler's
result.  URL resolution (`new URL(a.href, location.href)`) is modelled
abstractly: an anchor carries its resolved href and resolved origin as
fields, since the script only compares the resolved origin with the page
origin and assigns the resolved href to `location.href`.
-/

namespace Site

/-! ## 1. Link hardener (`enhanceButtonLinks`)

`a.getAttribute("rel") || ""` is split on single spaces, empties dropped
(`.filter(Boolean)`), `noopener` / `noreferrer` are pushed when absent, and
the tokens are re-joined with single spaces.  We model the attribute text
as `List Char` and translate JS `String.prototype.split(" ")` and
`Array.prototype.join(" ")` directly. -/

/-- JS `s.split(" ")` on the character list of `s`: splits at every single
space, keeping empty pieces (so `"a  b"` gives `["a", "", "b"]`). -/
def splitOnSpace : List Char → List (List Char)
  | [] => [[]]
  | c :: cs =>
    let r := splitOnSpace cs
    if c = ' ' then [] :: r
    else
      match r with
      | [] => [[c]]
      | t :: ts => (c :: t) :: ts

/-- JS `parts.join(" ")`. -/
def joinSpace : List (List Char) → List Char
  | [] => []
  | [p] => p
  | p :: q :: rest => p ++ ' ' :: joinSpace (q :: rest)

/-- `(rel || "").split(" ").filter(Boolean)`: the rel token list the script
works with. -/
def relTokens (s : List Char) : List (List Char) :=
  (splitOnSpace s).filter (fun t => !t.isEmpty)

def noopenerT : List Char := "noopener".toList
def noreferrerT : List Char := "noreferrer".toList

/-- `if (!relParts.includes(t)) relParts.push(t)`. -/
def addToken (t : List Char) (parts : List (List Char)) : List (List Char) :=
  if t ∈ parts then parts else parts ++ [t]

/-- The two guarded pushes, in source order: `noopener` first, then
`noreferrer` (the second `includes` check runs on the already-updated
list, exactly as the sequential JS pushes do). -/
def enhanceRel (parts : List (List Char)) : List (List Char) :=
  addToken noreferrerT (addToken noopenerT parts)

/-- An anchor element, restricted to the state the script reads or writes.
`target` is the reflected `target` property (`""` when the attribute is
absent); `rel` is the raw `rel` attribute (`none` when absent);
`hrefAttr` is `getAttribute("href")`; `resolvedHref` / `resolvedOrigin`
model the `a.href` property and the origin of
`new URL(a.href, location.href)`. -/
structure Anchor where
  classes : List String
  target : String
  rel : Option (List Char)
  hrefAttr : Option String
  resolvedHref : String
  resolvedOrigin : String
deriving DecidableEq

/-- Membership in the `querySelectorAll("a.btn, a.cta")` result. -/
def isBtnCta (a : Anchor) : Bool :=
  a.classes.contains "btn" || a.classes.contains "cta"

/-- `a.getAttribute("rel") || ""`. -/
def relText (a : Anchor) : List Char := a.rel.getD []

/-- The per-anchor body of `enhanceButtonLinks`: matched anchors get
`target = "_blank"` and the guarded rel pushes; others are untouched. -/
def enhanceAnchor (a : Anchor) : Anchor :=
  if isBtnCta a then
    { a with
      target := "_blank"
      rel := some (joinSpace (enhanceRel (relTokens (relText a)))) }
  else a

/-- `enhanceButtonLinks(root)`: the root is modelled as the list of its
anchors in document order; the selector match and the `forEach` mutation
together act as a conditional map. -/
def enhanceButtonLinks (root : List Anchor) : List Anchor :=
  root.map enhanceAnchor

/-! ### Splitting / joining lemmas -/

theorem splitOnSpace_ne_nil (s : List Char) : splitOnSpace s ≠ [] := by
  induction s with
  | nil => simp [splitOnSpace]
  | cons c cs ih =>
    simp only [splitOnSpace]
    split
    · simp
    · match h : splitOnSpace cs with
      | [] => simp
      | t :: ts => simp

theorem mem_splitOnSpace_no_space (s : List Char) :
    ∀ t ∈ splitOnSpace s, ' ' ∉ t := by
  induction s with
  | nil => intro t ht; simp [splitOnSpace] at ht; simp [ht]
  | cons c cs ih =>
    intro t ht
    simp only [splitOnSpace] at ht
    split at ht
    · rcases List.mem_cons.mp ht with h | h
      · simp [h]
      · exact ih t h
    · rename_i hc
      match hsplit : splitOnSpace cs with
      | [] => exact absurd hsplit (splitOnSpace_ne_nil cs)
      | t0 :: ts =>
        rw [hsplit] at ht
        rcases List.mem_cons.mp ht with h | h
        · subst h
          intro hmem
          rcases List.mem_cons.mp hmem with h | h
          · exact hc h.symm
          · exact ih t0 (hsplit ▸ List.mem_cons_self t0 ts) h
        · exact ih t (hsplit ▸ List.mem_cons_of_mem t0 h)

theorem splitOnSpace_no_space (p : List Char) (hp : ' ' ∉ p) :
    splitOnSpace p = [p] := by
  induction p with
  | nil => rfl
  | cons c cs ih =>
    have hc : c ≠ ' ' := fun h => hp (h ▸ List.mem_cons_self c cs)
    have hcs : ' ' ∉ cs := fun h => hp (List.mem_cons_of_mem c h)
    simp only [splitOnSpace, if_neg hc, ih hcs]

theorem splitOnSpace_append (p rest : List Char) (hp : ' ' ∉ p) :
    splitOnSpace (p ++ ' ' :: rest) = p :: splitOnSpace rest := by
  induction p with
  | nil => simp [splitOnSpace]
  | cons c cs ih =>
    have hc : c ≠ ' ' := fun h => hp (h ▸ List.mem_cons_self c cs)
    have hcs : ' ' ∉ cs := fun h => hp (List.mem_cons_of_mem c h)
    simp only [List.cons_append, splitOnSpace, if_neg hc, List.append_eq, ih hcs]

/-- Round trip: joining space-free, non-empty tokens with spaces and
re-tokenising gives the tokens back. -/
theorem relTokens_joinSpace (parts : List (List Char))
    (h : ∀ t ∈ parts, t ≠ [] ∧ ' ' ∉ t) :
    relTokens (joinSpace parts) = parts := by
  induction parts with
  | nil => rfl
  | cons p rest ih =>
    match rest with
    | [] =>
      have hp := h p (List.mem_cons_self p [])
      simp only [joinSpace, relTokens, splitOnSpace_no_space p hp.2]
      simp [List.filter_cons, List.isEmpty_iff, hp.1]
    | q :: rest' =>
      have hp := h p (List.mem_cons_self p (q :: rest'))
      have hrest : ∀ t ∈ q :: rest', t ≠ [] ∧ ' ' ∉ t := fun t ht =>
        h t (List.mem_cons_of_mem p ht)
      have := ih hrest
      simp only [joinSpace, relTokens, splitOnSpace_append p _ hp.2] at *
      rw [List.filter_cons_of_pos (by simp [List.isEmpty_iff, hp.1]), this]

theorem mem_relTokens (s : List Char) :
    ∀ t ∈ relTokens s, t ≠ [] ∧ ' ' ∉ t := by
  intro t ht
  simp only [relTokens, List.mem_filter] at ht
  refine ⟨?_, mem_splitOnSpace_no_space s t ht.1⟩
  simpa [List.isEmpty_iff] using ht.2

/-! ### `addToken` / `enhanceRel` properties -/

theorem mem_addToken_iff (t u : List Char) (parts : List (List Char)) :
    u ∈ addToken t parts ↔ u ∈ parts ∨ u = t := by
  unfold addToken
  split
  · rename_i hmem
    constructor
    · exact Or.inl
    · rintro (h | rfl)
      · exact h
      · exact hmem
  · simp

theorem addToken_mem_self (t : List Char) (parts : List (List Char)) :
    t ∈ addToken t parts :=
  (mem_addToken_iff t t parts).mpr (Or.inr rfl)

/-- Number of occurrences of a rel token in a token list. -/
def countTok (t : List Char) : List (List Char) → Nat
  | [] => 0
  | u :: us => (if u = t then 1 else 0) + countTok t us

theorem countTok_eq_zero (t : List Char) (l : List (List Char))
    (h : t ∉ l) : countTok t l = 0 := by
  induction l with
  | nil => rfl
  | cons u us ih =>
    have hu : u ≠ t := fun he => h (he ▸ List.mem_cons_self u us)
    have := ih (fun hm => h (List.mem_cons_of_mem u hm))
    simp [countTok, hu, this]

theorem countTok_append (t : List Char) (l1 l2 : List (List Char)) :
    countTok t (l1 ++ l2) = countTok t l1 + countTok t l2 := by
  induction l1 with
  | nil => simp [countTok]
  | cons u us ih => simp [countTok, ih]; omega

theorem countTok_eq_one_of_nodup (t : List Char) (l : List (List Char))
    (hnd : l.Nodup) (hm : t ∈ l) : countTok t l = 1 := by
  induction l with
  | nil => cases hm
  | cons u us ih =>
    have hnd' := List.nodup_cons.mp hnd
    rcases List.mem_cons.mp hm with rfl | hm'
    · simp [countTok, countTok_eq_zero t us hnd'.1]
    · have hu : u ≠ t := fun he => hnd'.1 (he ▸ hm')
      simp [countTok, hu, ih hnd'.2 hm']

theorem count_addToken_self (t : List Char) (parts : List (List Char))
    (h : parts.Nodup) : countTok t (addToken t parts) = 1 := by
  unfold addToken
  split
  · exact countTok_eq_one_of_nodup t parts h (by assumption)
  · rename_i hmem
    rw [countTok_append, countTok_eq_zero t parts hmem]
    simp [countTok]

theorem count_addToken_other (t u : List Char) (parts : List (List Char))
    (h : u ≠ t) : countTok u (addToken t parts) = countTok u parts := by
  unfold addToken
  split
  · rfl
  · rw [countTok_append]
    have htu : t ≠ u := fun he => h he.symm
    simp [countTok, htu]

theorem nodup_addToken (t : List Char) (parts : List (List Char))
    (h : parts.Nodup) : (addToken t parts).Nodup := by
  unfold addToken
  split
  · exact h
  · rename_i hmem
    simp [List.nodup_append, h, hmem]

theorem mem_addToken_of_mem (t u : List Char) (parts : List (List Char))
    (h : u ∈ parts) : u ∈ addToken t parts :=
  (mem_addToken_iff t u parts).mpr (Or.inl h)

theorem noopener_ok : noopenerT ≠ [] ∧ ' ' ∉ noopenerT := by decide

theorem noreferrer_ok : noreferrerT ≠ [] ∧ ' ' ∉ noreferrerT := by decide

theorem noopener_ne_noreferrer : noopenerT ≠ noreferrerT := by decide

theorem enhanceRel_tokens_ok (parts : List (List Char))
    (h : ∀ t ∈ parts, t ≠ [] ∧ ' ' ∉ t) :
    ∀ t ∈ enhanceRel parts, t ≠ [] ∧ ' ' ∉ t := by
  intro t ht
  unfold enhanceRel at ht
  rcases (mem_addToken_iff _ _ _).mp ht with ht | rfl
  · rcases (mem_addToken_iff _ _ _).mp ht with ht | rfl
    · exact h t ht
    · exact noopener_ok
  · exact noreferrer_ok

theorem enhanceRel_contains (parts : List (List Char)) :
    noopenerT ∈ enhanceRel parts ∧ noreferrerT ∈ enhanceRel parts :=
  ⟨mem_addToken_of_mem _ _ _ (addToken_mem_self _ _),
   addToken_mem_self _ _⟩

theorem enhanceRel_of_contains (parts : List (List Char))
    (h1 : noopenerT ∈ parts) (h2 : noreferrerT ∈ parts) :
    enhanceRel parts = parts := by
  unfold enhanceRel addToken
  rw [if_pos h1, if_pos h2]

/-- Core idempotence of the per-anchor enhancement. -/
theorem enhanceAnchor_idem (a : Anchor) :
    enhanceAnchor (enhanceAnchor a) = enhanceAnchor a := by
  obtain ⟨cls, tgt, rel, href, rhref, rorig⟩ := a
  have hround : relTokens (joinSpace (enhanceRel (relTokens (rel.getD []))))
      = enhanceRel (relTokens (rel.getD [])) :=
    relTokens_joinSpace _ (enhanceRel_tokens_ok _ (mem_relTokens _))
  have hfix := enhanceRel_of_contains (enhanceRel (relTokens (rel.getD [])))
    (enhanceRel_contains _).1 (enhanceRel_contains _).2
  by_cases hbc : (cls.contains "btn" || cls.contains "cta") = true
  · simp only [enhanceAnchor, isBtnCta, relText, hbc, if_true, Option.getD_some]
    rw [hround, hfix]
  · have hbc' : (cls.contains "btn" || cls.contains "cta") = false :=
      Bool.eq_false_iff.mpr hbc
    simp only [enhanceAnchor, isBtnCta, hbc', Bool.false_eq_true, if_false]

theorem nodup_enhanceRel (parts : List (List Char)) (h : parts.Nodup) :
    (enhanceRel parts).Nodup :=
  nodup_addToken _ _ (nodup_addToken _ _ h)

theorem relTokens_enhanceAnchor (a : Anchor) (hbc : isBtnCta a = true) :
    relTokens (relText (enhanceAnchor a)) = enhanceRel (relTokens (relText a)) := by
  unfold enhanceAnchor
  rw [if_pos hbc]
  show relTokens ((some (joinSpace (enhanceRel (relTokens (relText a))))).getD []) = _
  rw [Option.getD_some]
  exact relTokens_joinSpace _ (enhanceRel_tokens_ok _ (mem_relTokens _))

theorem target_enhanceAnchor (a : Anchor) (hbc : isBtnCta a = true) :
    (enhanceAnchor a).target = "_blank" := by
  unfold enhanceAnchor
  rw [if_pos hbc]

/-- C2 (amended): after the link enhancement runs on a root, every anchor
with class `btn` or `cta` has `target = "_blank"` and — provided its
pre-existing rel token list carried no duplicate token — a rel token list
containing `noopener` and `noreferrer` exactly once each, with every
pre-existing token preserved, no token duplicated, and every token other
than `noopener`/`noreferrer` present afterwards exactly when it was
present before; anchors without those classes are untouched, and a root
without matches is left unchanged. -/
theorem claim_C2_link_hardener (root : List Anchor) (a : Anchor) (ha : a ∈ root)
    (hnd : (relTokens (relText a)).Nodup) :
    (isBtnCta a = true →
      (enhanceAnchor a).target = "_blank" ∧
      countTok noopenerT (relTokens (relText (enhanceAnchor a))) = 1 ∧
      countTok noreferrerT (relTokens (relText (enhanceAnchor a))) = 1 ∧
      (∀ t ∈ relTokens (relText a), t ∈ relTokens (relText (enhanceAnchor a))) ∧
      (relTokens (relText (enhanceAnchor a))).Nodup ∧
      (∀ t, t ≠ noopenerT → t ≠ noreferrerT →
        (t ∈ relTokens (relText (enhanceAnchor a)) ↔ t ∈ relTokens (relText a)))) ∧
    (isBtnCta a = false → enhanceAnchor a = a) ∧
    enhanceAnchor a ∈ enhanceButtonLinks root ∧
    ((∀ b ∈ root, isBtnCta b = false) → enhanceButtonLinks root = root) := by
  refine ⟨fun hbc => ?_, fun hbc => ?_, ?_, fun hall => ?_⟩
  · rw [relTokens_enhanceAnchor a hbc]
    refine ⟨target_enhanceAnchor a hbc, ?_, ?_, ?_, nodup_enhanceRel _ hnd, ?_⟩
    · rw [show enhanceRel (relTokens (relText a))
          = addToken noreferrerT (addToken noopenerT (relTokens (relText a))) from rfl,
        count_addToken_other _ _ _ noopener_ne_noreferrer]
      exact count_addToken_self _ _ hnd
    · exact count_addToken_self _ _ (nodup_addToken _ _ hnd)
    · exact fun t ht => mem_addToken_of_mem _ _ _ (mem_addToken_of_mem _ _ _ ht)
    · intro t h1 h2
      unfold enhanceRel
      rw [mem_addToken_iff, mem_addToken_iff]
      simp [h1, h2]
  · unfold enhanceAnchor
    rw [if_neg (by simp [hbc])]
  · exact List.mem_map_of_mem enhanceAnchor ha
  · unfold enhanceButtonLinks
    have : ∀ b ∈ root, enhanceAnchor b = b := by
      intro b hb
      unfold enhanceAnchor
      rw [if_neg (by simp [hall b hb])]
    calc root.map enhanceAnchor = root.map id := List.map_congr_left this
      _ = root := List.map_id root

/-- An anchor whose pre-existing `rel` already holds `noopener` twice. -/
def relDupAnchor : Anchor :=
  { classes := ["btn"], target := "", rel := some ("noopener noopener".toList),
    hrefAttr := none, resolvedHref := "", resolvedOrigin := "" }

/-- C2 counterexample: the enhancement does not deduplicate pre-existing
rel tokens, so on an anchor whose `rel` attribute is
`"noopener noopener"` the enhanced rel token list holds `noopener`
twice, not exactly once as the claim states. -/
theorem claim_C2_counterexample :
    isBtnCta relDupAnchor = true ∧
    countTok noopenerT
      (relTokens (relText ((enhanceButtonLinks [relDupAnchor]).getD 0 relDupAnchor))) = 2 := by
  constructor
  · rfl
  · rfl

/-- C2 witness: concrete run of the amended statement on a one-anchor root
whose anchor has class `cta`, rel `"external nofollow"`. -/
def ctaAnchor : Anchor :=
  { classes := ["cta"], target := "", rel := some ("external nofollow".toList),
    hrefAttr := some "https://example.com", resolvedHref := "https://example.com/",
    resolvedOrigin := "https://example.com" }

theorem claim_C2_witness :
    ctaAnchor ∈ [ctaAnchor] ∧ (relTokens (relText ctaAnchor)).Nodup ∧
    isBtnCta ctaAnchor = true ∧
    (enhanceAnchor ctaAnchor).target = "_blank" ∧
    countTok noopenerT (relTokens (relText (enhanceAnchor ctaAnchor))) = 1 ∧
    countTok noreferrerT (relTokens (relText (enhanceAnchor ctaAnchor))) = 1 := by
  have hm : ctaAnchor ∈ [ctaAnchor] := List.mem_singleton.mpr rfl
  have hnd : (relTokens (relText ctaAnchor)).Nodup := by decide
  have h := (claim_C2_link_hardener [ctaAnchor] ctaAnchor hm hnd).1 (by rfl)
  exact ⟨hm, hnd, rfl, h.1, h.2.1, h.2.2.1⟩

/-- C9: the link enhancement is idempotent — a second run on any anchor
(and on any root) reproduces exactly the `rel`/`target` values of the
first run. -/
theorem claim_C9_enhancement_idempotent :
    (∀ a : Anchor, enhanceAnchor (enhanceAnchor a) = enhanceAnchor a) ∧
    (∀ root : List Anchor,
      enhanceButtonLinks (enhanceButtonLinks root) = enhanceButtonLinks root) := by
  refine ⟨enhanceAnchor_idem, fun root => ?_⟩
  unfold enhanceButtonLinks
  rw [List.map_map]
  exact List.map_congr_left (fun a _ => enhanceAnchor_idem a)

/-! ## 2. Page transition controller (document click handler)

The delegated `click` handler intercepts internal navigations: it calls
`preventDefault`, adds `is-exiting` to the body, and schedules
`location.href = a.href` after 240 ms.  The handler's effects are
returned as data: whether default was prevented, whether the class was
added, and the scheduled navigation (delay, url) if any. -/

/-- The modifier-key state of the click event. -/
structure Mods where
  metaKey : Bool
  ctrlKey : Bool
  shiftKey : Bool
  altKey : Bool
deriving DecidableEq

/-- Observable outcome of one run of the click handler. -/
structure ClickResult where
  defaultPrevented : Bool
  isExitingAdded : Bool
  scheduledNav : Option (Nat × String)
deriving DecidableEq

/-- No interception: default navigation proceeds, no class, no timer. -/
def untouched : ClickResult :=
  { defaultPrevented := false, isExitingAdded := false, scheduledNav := none }

/-- `isInternalLink(a)`: resolved origin equals the page origin and the
anchor has no explicit target (`!a.target`, i.e. the reflected target
property is the empty string). -/
def isInternalLink (pageOrigin : String) (a : Anchor) : Bool :=
  a.resolvedOrigin == pageOrigin && a.target == ""

/-- `href.startsWith("#")` for the single-character prefix `"#"`: true
exactly when the first character of the string is `#`. -/
def startsWithHash (s : String) : Bool :=
  match s.toList with
  | [] => false
  | c :: _ => c = '#'

/-- The body of the delegated click listener.  `anc` is
`e.target.closest("a")` (`none` when the click hit no anchor). -/
def handleClick (pageOrigin : String) (anc : Option Anchor) (e : Mods) : ClickResult :=
  match anc with
  | none => untouched
  | some a =>
    if !(isInternalLink pageOrigin a) then untouched
    else if e.metaKey || e.ctrlKey || e.shiftKey || e.altKey
        || (a.target == "_blank") then untouched
    else if startsWithHash (a.hrefAttr.getD "") then untouched
    else
      { defaultPrevented := true, isExitingAdded := true,
        scheduledNav := some (240, a.resolvedHref) }

/-- C1: a click on a same-origin anchor with no explicit target, no
modifier key and a non-hash href is intercepted — default prevented,
`is-exiting` added, navigation to the anchor's resolved href scheduled
after exactly 240 ms; a click on an anchor that is cross-origin, carries
any explicit target, is hash-only, or comes with a modifier key is left
completely untouched. -/
theorem claim_C1_click_interception (pageOrigin : String) (a : Anchor) (e : Mods) :
    (a.resolvedOrigin = pageOrigin → a.target = "" →
     e.metaKey = false → e.ctrlKey = false → e.shiftKey = false → e.altKey = false →
     startsWithHash (a.hrefAttr.getD "") = false →
     handleClick pageOrigin (some a) e =
       { defaultPrevented := true, isExitingAdded := true,
         scheduledNav := some (240, a.resolvedHref) }) ∧
    ((a.resolvedOrigin ≠ pageOrigin ∨ a.target ≠ "" ∨
      e.metaKey = true ∨ e.ctrlKey = true ∨ e.shiftKey = true ∨ e.altKey = true ∨
      startsWithHash (a.hrefAttr.getD "") = true) →
     handleClick pageOrigin (some a) e = untouched) := by
  constructor
  · intro h1 h2 h3 h4 h5 h6 h7
    simp [handleClick, isInternalLink, h1, h2, h3, h4, h5, h6, h7]
  · intro h
    rcases h with h | h | h | h | h | h | h
    · simp [handleClick, isInternalLink, h]
    · simp [handleClick, isInternalLink, h]
    · simp [handleClick, h]
    · simp [handleClick, h]
    · simp [handleClick, h]
    · simp [handleClick, h]
    · simp [handleClick, h]

/-- A same-origin anchor to `/about`, as in the spec's example. -/
def aboutAnchor : Anchor :=
  { classes := [], target := "", rel := none, hrefAttr := some "/about",
    resolvedHref := "https://site.test/about", resolvedOrigin := "https://site.test" }

/-- A pure hash link on the same page. -/
def hashAnchor : Anchor :=
  { classes := [], target := "", rel := none, hrefAttr := some "#section",
    resolvedHref := "https://site.test/#section", resolvedOrigin := "https://site.test" }

/-- A `target="_blank"` anchor. -/
def blankAnchor : Anchor :=
  { classes := [], target := "_blank", rel := none, hrefAttr := some "/about",
    resolvedHref := "https://site.test/about", resolvedOrigin := "https://site.test" }

/-- A cross-origin anchor. -/
def externalAnchor : Anchor :=
  { classes := [], target := "", rel := none, hrefAttr := some "https://other.test/x",
    resolvedHref := "https://other.test/x", resolvedOrigin := "https://other.test" }

def noMods : Mods :=
  { metaKey := false, ctrlKey := false, shiftKey := false, altKey := false }

theorem claim_C1_witness :
    handleClick "https://site.test" (some aboutAnchor) noMods =
      { defaultPrevented := true, isExitingAdded := true,
        scheduledNav := some (240, "https://site.test/about") } ∧
    handleClick "https://site.test" (some hashAnchor) noMods = untouched ∧
    handleClick "https://site.test" (some blankAnchor) noMods = untouched ∧
    handleClick "https://site.test" (some externalAnchor) noMods = untouched ∧
    handleClick "https://site.test" (some aboutAnchor)
      { metaKey := true, ctrlKey := false, shiftKey := false, altKey := false } = untouched := by
  refine ⟨(claim_C1_click_interception "https://site.test" aboutAnchor noMods).1
      rfl rfl rfl rfl rfl rfl (by decide),
    (claim_C1_click_interception "https://site.test" hashAnchor noMods).2
      (Or.inr (Or.inr (Or.inr (Or.inr (Or.inr (Or.inr (by decide))))))),
    (claim_C1_click_interception "https://site.test" blankAnchor noMods).2
      (Or.inr (Or.inl (by decide))),
    (claim_C1_click_interception "https://site.test" externalAnchor noMods).2
      (Or.inl (by decide)),
    (claim_C1_click_interception "https://site.test" aboutAnchor _).2
      (Or.inr (Or.inr (Or.inl rfl)))⟩

/-- C10: once enhanced, a `btn`/`cta` anchor carries `target = "_blank"`,
so the page-transition click handler never intercepts it — even when its
URL is same-origin: no `is-exiting`, no `preventDefault`, no scheduled
navigation. -/
theorem claim_C10_enhanced_not_intercepted (pageOrigin : String) (a : Anchor) (e : Mods)
    (hbc : isBtnCta a = true) :
    (enhanceAnchor a).target = "_blank" ∧
    handleClick pageOrigin (some (enhanceAnchor a)) e = untouched := by
  have htgt := target_enhanceAnchor a hbc
  refine ⟨htgt, ?_⟩
  simp [handleClick, isInternalLink, htgt]

/-- A same-origin `btn` anchor: without enhancement its click would be
intercepted; after enhancement it is not. -/
def sameOriginBtn : Anchor :=
  { classes := ["btn"], target := "", rel := none, hrefAttr := some "/tickets",
    resolvedHref := "https://site.test/tickets", resolvedOrigin := "https://site.test" }

theorem claim_C10_witness :
    (enhanceAnchor sameOriginBtn).target = "_blank" ∧
    handleClick "https://site.test" (some (enhanceAnchor sameOriginBtn)) noMods = untouched :=
  claim_C10_enhanced_not_intercepted "https://site.test" sameOriginBtn noMods (by decide)

/-! ## 3. Hero autoplay retry (`tryPlay`)

`tryPlay` is guarded by `tries >= maxTries`; otherwise it increments the
counter and schedules one `v.play()` via `setTimeout`.  The state counts
the guard variable and the number of play attempts scheduled so far. -/

structure AutoplayState where
  tries : Nat
  scheduled : Nat
deriving DecidableEq

def maxTries : Nat := 4

/-- One call of `tryPlay` (the delay argument does not affect the count). -/
def tryPlay (s : AutoplayState) : AutoplayState :=
  if maxTries ≤ s.tries then s
  else { tries := s.tries + 1, scheduled := s.scheduled + 1 }

/-- `n` trigger firings (data-ready, visibility regain, user gestures),
each of which calls `tryPlay` once. -/
def iterTryPlay : Nat → AutoplayState → AutoplayState
  | 0, s => s
  | n + 1, s => iterTryPlay n (tryPlay s)

theorem iterTryPlay_invariant (n : Nat) (s : AutoplayState)
    (h1 : s.tries ≤ maxTries) (h2 : s.scheduled ≤ s.tries) :
    (iterTryPlay n s).tries ≤ maxTries ∧
    (iterTryPlay n s).scheduled ≤ (iterTryPlay n s).tries := by
  induction n generalizing s with
  | zero => exact ⟨h1, h2⟩
  | succ n ih =>
    show (iterTryPlay n (tryPlay s)).tries ≤ maxTries ∧ _
    apply ih
    · unfold tryPlay
      split
      · exact h1
      · rename_i hlt
        simp only [maxTries] at *
        omega
    · unfold tryPlay
      split
      · exact h2
      · simpa using h2

/-- C8: starting from a fresh counter, no matter how many triggers fire,
the attempt counter never exceeds the cap of 4 and at most 4 play
attempts are ever scheduled; once 4 attempts have been counted, every
further `tryPlay` call is a silent no-op. -/
theorem claim_C8_autoplay_cap (n : Nat) (s : AutoplayState) (h : maxTries ≤ s.tries) :
    (iterTryPlay n { tries := 0, scheduled := 0 }).tries ≤ maxTries ∧
    (iterTryPlay n { tries := 0, scheduled := 0 }).scheduled ≤ maxTries ∧
    tryPlay s = s := by
  have hinv := iterTryPlay_invariant n { tries := 0, scheduled := 0 }
    (by simp [maxTries]) (by simp)
  exact ⟨hinv.1, le_trans hinv.2 hinv.1, by unfold tryPlay; rw [if_pos h]⟩

theorem claim_C8_witness :
    (iterTryPlay 9 { tries := 0, scheduled := 0 }).tries ≤ maxTries ∧
    (iterTryPlay 9 { tries := 0, scheduled := 0 }).scheduled ≤ maxTries ∧
    tryPlay { tries := 4, scheduled := 4 } = { tries := 4, scheduled := 4 } :=
  claim_C8_autoplay_cap 9 { tries := 4, scheduled := 4 } (by decide)

/-! ## 4. Mobile drawer controller (`initMobileNav`)

The drawer state is the DOM state the script reads and writes: the
`nav-open` body class, the three mirrored attributes, the focused
element, and the drawer's focusable elements.  `initMobileNav` itself
only registers listeners; each registered closure carries its own
`lastFocused` variable and its own `onKeydown` identity, modelled by
`Closure`.  Focus calls follow DOM semantics: `el.focus()` moves focus
only when the element can actually receive it (still in the document and
focusable); on any other element the call is a no-op. -/

/-- An element as seen by the drawer code: `disabled` models the
`hasAttribute("disabled")` filter, `canReceiveFocus` whether a `.focus()`
call on it actually moves focus, `hasFocusFn` the
`typeof el.focus === "function"` check. -/
structure Elem where
  id : Nat
  disabled : Bool
  canReceiveFocus : Bool
  hasFocusFn : Bool
deriving DecidableEq

/-- The DOM state shared by every registered listener. -/
structure Dom where
  navOpen : Bool
  ariaHidden : String
  ariaExpanded : String
  backdropHidden : Bool
  focused : Option Elem
  drawerEls : List Elem
  toggle : Elem
  closeBtn : Elem
deriving DecidableEq

/-- The per-`initMobileNav` closure state: its `lastFocused` variable and
whether its `onKeydown` is currently attached to the document. -/
structure Closure where
  lastFocused : Option Elem
  keydownInstalled : Bool
deriving DecidableEq

/-- `getFocusable()`: drawer descendants matching the selector, minus
disabled ones. -/
def getFocusable (d : Dom) : List Elem :=
  d.drawerEls.filter (fun e => !e.disabled)

/-- `el.focus()` under DOM semantics. -/
def focusElem (e : Elem) (d : Dom) : Dom :=
  if e.canReceiveFocus then { d with focused := some e } else d

/-- `open()`: guarded on `nav-open`; records the active element, sets the
open class and the three mirrored attributes, focuses the first
focusable drawer element (falling back to the close button), and
installs the keydown listener. -/
def openDrawer (c : Closure) (d : Dom) : Closure × Dom :=
  if d.navOpen then (c, d)
  else
    let c' : Closure := { lastFocused := d.focused, keydownInstalled := true }
    let d' := { d with navOpen := true, ariaHidden := "false",
                       ariaExpanded := "true", backdropHidden := false }
    (c', focusElem ((getFocusable d').headD d'.closeBtn) d')

/-- `close()`: guarded on `nav-open`; clears the class and attributes,
removes the keydown listener, then calls `.focus()` on `lastFocused`
when it is non-null and has a focus method, else on the toggle. -/
def closeDrawer (c : Closure) (d : Dom) : Closure × Dom :=
  if !d.navOpen then (c, d)
  else
    let d' := { d with navOpen := false, ariaHidden := "true",
                       ariaExpanded := "false", backdropHidden := true }
    let c' := { c with keydownInstalled := false }
    match c.lastFocused with
    | some e =>
      if e.hasFocusFn then (c', focusElem e d') else (c', focusElem d'.toggle d')
    | none => (c', focusElem d'.toggle d')

structure KeyEvent where
  key : String
  shiftKey : Bool
deriving DecidableEq

/-- `focusables[focusables.length - 1]` for the non-empty list
`f :: rest`. -/
def lastOf (f : Elem) (rest : List Elem) : Elem :=
  match rest with
  | [] => f
  | x :: xs => lastOf x xs

/-- `trapTab(e)`: while open, Tab on the last focusable element wraps to
the first, Shift+Tab on the first wraps to the last; the Bool result is
whether `preventDefault` was called. -/
def trapTab (e : KeyEvent) (d : Dom) : Dom × Bool :=
  if !d.navOpen then (d, false)
  else if e.key ≠ "Tab" then (d, false)
  else
    match getFocusable d with
    | [] => (d, false)
    | f :: rest =>
      let lastE := lastOf f rest
      if e.shiftKey = true ∧ d.focused = some f then (focusElem lastE d, true)
      else if e.shiftKey = false ∧ d.focused = some lastE then (focusElem f d, true)
      else (d, false)

/-- `onKeydown(e)`: Escape closes, everything else goes to the trap. -/
def onKeydown (e : KeyEvent) (c : Closure) (d : Dom) : (Closure × Dom) × Bool :=
  if e.key = "Escape" then (closeDrawer c d, false)
  else
    let r := trapTab e d
    ((c, r.1), r.2)

/-- A document `keydown` reaches this closure's `onKeydown` only while
the listener is attached. -/
def keydownEvent (e : KeyEvent) (c : Closure) (d : Dom) : (Closure × Dom) × Bool :=
  if c.keydownInstalled then onKeydown e c d else ((c, d), false)

/-- The toggle-button click listener: reads `aria-expanded` from the DOM
and opens or closes accordingly. -/
def toggleClick (c : Closure) (d : Dom) : Closure × Dom :=
  if d.ariaExpanded = "true" then closeDrawer c d else openDrawer c d

/-- Every drawer entry point the script registers. -/
inductive NavOp where
  | doOpen
  | doClose
  | toggleBtnClick
  | closeBtnClick
  | backdropClick
  | drawerLinkClick (hit : Bool)
  | keypress (e : KeyEvent)
  | resize (w : Nat)

def applyOp : NavOp → Closure × Dom → Closure × Dom
  | .doOpen, (c, d) => openDrawer c d
  | .doClose, (c, d) => closeDrawer c d
  | .toggleBtnClick, (c, d) => toggleClick c d
  | .closeBtnClick, (c, d) => closeDrawer c d
  | .backdropClick, (c, d) => closeDrawer c d
  | .drawerLinkClick hit, (c, d) => if hit then closeDrawer c d else (c, d)
  | .keypress e, (c, d) => (keydownEvent e c d).1
  | .resize w, (c, d) => if 720 < w then closeDrawer c d else (c, d)

def applyOps (ops : List NavOp) (s : Closure × Dom) : Closure × Dom :=
  ops.foldl (fun s op => applyOp op s) s

/-- The drawer-state invariant: the `nav-open` class and the three
mirrored attributes agree. -/
def wellFormed (d : Dom) : Prop :=
  (d.navOpen = true ↔ d.ariaHidden = "false") ∧
  (d.navOpen = true ↔ d.ariaExpanded = "true") ∧
  (d.navOpen = true ↔ d.backdropHidden = false)

instance (d : Dom) : Decidable (wellFormed d) := by
  unfold wellFormed
  infer_instance

@[simp] theorem focusElem_navOpen (e : Elem) (d : Dom) :
    (focusElem e d).navOpen = d.navOpen := by
  unfold focusElem; split <;> rfl

@[simp] theorem focusElem_ariaHidden (e : Elem) (d : Dom) :
    (focusElem e d).ariaHidden = d.ariaHidden := by
  unfold focusElem; split <;> rfl

@[simp] theorem focusElem_ariaExpanded (e : Elem) (d : Dom) :
    (focusElem e d).ariaExpanded = d.ariaExpanded := by
  unfold focusElem; split <;> rfl

@[simp] theorem focusElem_backdropHidden (e : Elem) (d : Dom) :
    (focusElem e d).backdropHidden = d.backdropHidden := by
  unfold focusElem; split <;> rfl

theorem wellFormed_focusElem (e : Elem) (d : Dom) :
    wellFormed (focusElem e d) ↔ wellFormed d := by
  unfold wellFormed
  rw [focusElem_navOpen, focusElem_ariaHidden, focusElem_ariaExpanded,
    focusElem_backdropHidden]

theorem wf_openDrawer (c : Closure) (d : Dom) (h : wellFormed d) :
    wellFormed (openDrawer c d).2 := by
  unfold openDrawer
  split
  · exact h
  · simp only [wellFormed_focusElem]
    unfold wellFormed
    refine ⟨?_, ?_, ?_⟩ <;> simp

theorem navOpen_openDrawer (c : Closure) (d : Dom) (h : d.navOpen = false) :
    (openDrawer c d).2.navOpen = true := by
  unfold openDrawer
  rw [h]
  simp

theorem wf_closeDrawer (c : Closure) (d : Dom) (h : wellFormed d) :
    wellFormed (closeDrawer c d).2 := by
  unfold closeDrawer
  split
  · exact h
  · cases c.lastFocused with
    | none =>
      simp only [wellFormed_focusElem]
      unfold wellFormed
      refine ⟨?_, ?_, ?_⟩ <;> simp
    | some e =>
      simp only
      split <;>
      · simp only [wellFormed_focusElem]
        unfold wellFormed
        refine ⟨?_, ?_, ?_⟩ <;> simp

theorem navOpen_closeDrawer (c : Closure) (d : Dom) (h : d.navOpen = true) :
    (closeDrawer c d).2.navOpen = false := by
  unfold closeDrawer
  rw [h]
  simp only [Bool.not_true, Bool.false_eq_true, if_false]
  cases c.lastFocused with
  | none => simp
  | some e =>
    simp only
    split <;> simp

theorem wf_trapTab (e : KeyEvent) (d : Dom) (h : wellFormed d) :
    wellFormed (trapTab e d).1 := by
  unfold trapTab
  split
  · exact h
  split
  · exact h
  split
  · exact h
  · simp only
    split
    · exact (wellFormed_focusElem _ _).mpr h
    split
    · exact (wellFormed_focusElem _ _).mpr h
    · exact h

theorem wf_keydownEvent (e : KeyEvent) (c : Closure) (d : Dom) (h : wellFormed d) :
    wellFormed ((keydownEvent e c d).1).2 := by
  unfold keydownEvent onKeydown
  split
  · split
    · exact wf_closeDrawer c d h
    · exact wf_trapTab e d h
  · exact h

theorem wf_toggleClick (c : Closure) (d : Dom) (h : wellFormed d) :
    wellFormed (toggleClick c d).2 := by
  unfold toggleClick
  split
  · exact wf_closeDrawer c d h
  · exact wf_openDrawer c d h

theorem wf_applyOp (op : NavOp) (s : Closure × Dom) (h : wellFormed s.2) :
    wellFormed (applyOp op s).2 := by
  obtain ⟨c, d⟩ := s
  cases op with
  | doOpen => exact wf_openDrawer c d h
  | doClose => exact wf_closeDrawer c d h
  | toggleBtnClick => exact wf_toggleClick c d h
  | closeBtnClick => exact wf_closeDrawer c d h
  | backdropClick => exact wf_closeDrawer c d h
  | drawerLinkClick hit =>
    cases hit
    · exact h
    · exact wf_closeDrawer c d h
  | keypress e => exact wf_keydownEvent e c d h
  | resize w =>
    show wellFormed (if 720 < w then closeDrawer c d else (c, d)).2
    by_cases hw : 720 < w
    · rw [if_pos hw]
      exact wf_closeDrawer c d h
    · rw [if_neg hw]
      exact h

/-- C5: drawer state and its three mirrored attributes always agree —
from any state where markup and class agree, every sequence of drawer
operations (open, close, toggle click, close-button click, backdrop
click, drawer-link click, any keydown including Escape, resize)
preserves the agreement of `nav-open`, `aria-hidden`, `aria-expanded`
and the backdrop's `hidden` attribute. -/
theorem claim_C5_drawer_state_invariant (ops : List NavOp) (c : Closure) (d : Dom)
    (h : wellFormed d) :
    wellFormed (applyOps ops (c, d)).2 := by
  suffices h' : ∀ s : Closure × Dom, wellFormed s.2 → wellFormed (applyOps ops s).2 by
    exact h' (c, d) h
  induction ops with
  | nil => exact fun s hs => hs
  | cons op ops ih => exact fun s hs => ih (applyOp op s) (wf_applyOp op s hs)

def toggleElem : Elem := { id := 1, disabled := false, canReceiveFocus := true, hasFocusFn := true }
def closeBtnElem : Elem := { id := 2, disabled := false, canReceiveFocus := true, hasFocusFn := true }
def linkElem : Elem := { id := 3, disabled := false, canReceiveFocus := true, hasFocusFn := true }

/-- A recorded element that is no longer in the document: it still has a
`.focus` method, but calling it moves focus nowhere. -/
def staleElem : Elem := { id := 7, disabled := false, canReceiveFocus := false, hasFocusFn := true }

def closedDom : Dom :=
  { navOpen := false, ariaHidden := "true", ariaExpanded := "false",
    backdropHidden := true, focused := some toggleElem,
    drawerEls := [linkElem], toggle := toggleElem, closeBtn := closeBtnElem }

def freshClosure : Closure := { lastFocused := none, keydownInstalled := false }

theorem claim_C5_witness :
    wellFormed closedDom ∧
    wellFormed (applyOps
      [NavOp.doOpen, NavOp.keypress { key := "Escape", shiftKey := false },
       NavOp.toggleBtnClick, NavOp.resize 900]
      (freshClosure, closedDom)).2 :=
  ⟨by decide,
   claim_C5_drawer_state_invariant
     [NavOp.doOpen, NavOp.keypress { key := "Escape", shiftKey := false },
      NavOp.toggleBtnClick, NavOp.resize 900]
     freshClosure closedDom (by decide)⟩

/-- C6: opening a closed drawer records the focused element, sets the
open class and all three mirrored attributes, focuses the first
focusable drawer element (or the close button when there is none) and
installs the keydown listener; opening an already-open drawer changes
nothing. -/
theorem claim_C6_open_transition (c : Closure) (d : Dom) :
    (d.navOpen = false →
      ((getFocusable d).headD d.closeBtn).canReceiveFocus = true →
      openDrawer c d =
        ({ lastFocused := d.focused, keydownInstalled := true },
         { d with navOpen := true, ariaHidden := "false", ariaExpanded := "true",
                  backdropHidden := false,
                  focused := some ((getFocusable d).headD d.closeBtn) })) ∧
    (d.navOpen = true → openDrawer c d = (c, d)) := by
  constructor
  · intro h hfoc
    unfold openDrawer
    rw [h]
    simp only [Bool.false_eq_true, if_false]
    unfold focusElem
    split
    · rfl
    · rename_i hcon
      exact absurd hfoc hcon
  · intro h
    unfold openDrawer
    rw [if_pos h]

theorem claim_C6_witness :
    closedDom.navOpen = false ∧
    ((getFocusable closedDom).headD closedDom.closeBtn).canReceiveFocus = true ∧
    openDrawer freshClosure closedDom =
      ({ lastFocused := some toggleElem, keydownInstalled := true },
       { closedDom with navOpen := true, ariaHidden := "false", ariaExpanded := "true",
                        backdropHidden := false, focused := some linkElem }) :=
  ⟨rfl, by decide,
   (claim_C6_open_transition freshClosure closedDom).1 rfl (by decide)⟩

/-- C7: while the drawer is open, Tab on the last focusable element wraps
(with `preventDefault`) to the first, Shift+Tab on the first wraps to the
last, any key other than Tab and Escape passes through with the state
unmodified and default not prevented, and Escape closes the drawer. -/
theorem claim_C7_focus_trap (c : Closure) (d : Dom) (f : Elem) (rest : List Elem)
    (hopen : d.navOpen = true) (hinst : c.keydownInstalled = true)
    (hfoc : getFocusable d = f :: rest) :
    (d.focused = some f → (lastOf f rest).canReceiveFocus = true →
      keydownEvent { key := "Tab", shiftKey := true } c d
        = ((c, { d with focused := some (lastOf f rest) }), true)) ∧
    (d.focused = some (lastOf f rest) → f.canReceiveFocus = true →
      keydownEvent { key := "Tab", shiftKey := false } c d
        = ((c, { d with focused := some f }), true)) ∧
    (∀ k sh, k ≠ "Tab" → k ≠ "Escape" →
      keydownEvent { key := k, shiftKey := sh } c d = ((c, d), false)) ∧
    (∀ sh, (keydownEvent { key := "Escape", shiftKey := sh } c d).1.2.navOpen = false ∧
      (keydownEvent { key := "Escape", shiftKey := sh } c d).2 = false) := by
  refine ⟨?_, ?_, ?_, ?_⟩
  · intro h1 h2
    simp [keydownEvent, onKeydown, trapTab, focusElem, hinst, hopen, hfoc, h1, h2]
  · intro h1 h2
    simp [keydownEvent, onKeydown, trapTab, focusElem, hinst, hopen, hfoc, h1, h2]
  · intro k sh hk1 hk2
    simp [keydownEvent, onKeydown, trapTab, hinst, hopen, hk1, hk2]
  · intro sh
    constructor
    · show ((if c.keydownInstalled then onKeydown { key := "Escape", shiftKey := sh } c d
        else ((c, d), false)).1.2).navOpen = false
      rw [if_pos hinst]
      show ((closeDrawer c d, false).1.2).navOpen = false
      exact navOpen_closeDrawer c d hopen
    · show (if c.keydownInstalled then onKeydown { key := "Escape", shiftKey := sh } c d
        else ((c, d), false)).2 = false
      rw [if_pos hinst]
      rfl

def openDom : Dom :=
  { navOpen := true, ariaHidden := "false", ariaExpanded := "true",
    backdropHidden := false, focused := some linkElem,
    drawerEls := [linkElem], toggle := toggleElem, closeBtn := closeBtnElem }

def openClosure : Closure := { lastFocused := some toggleElem, keydownInstalled := true }

theorem claim_C7_witness :
    keydownEvent { key := "Tab", shiftKey := false } openClosure openDom
      = ((openClosure, { openDom with focused := some linkElem }), true) ∧
    keydownEvent { key := "a", shiftKey := false } openClosure openDom
      = ((openClosure, openDom), false) ∧
    (keydownEvent { key := "Escape", shiftKey := false } openClosure openDom).1.2.navOpen
      = false := by
  have h := claim_C7_focus_trap openClosure openDom linkElem [] rfl rfl rfl
  exact ⟨h.2.1 rfl rfl, h.2.2.1 "a" false (by decide) (by decide), (h.2.2.2 false).1⟩

/-- C3 (amended): on closing an open drawer, focus is restored to the
recorded element when the reference is non-null, exposes a focus method
and can still receive focus; when no element was recorded (or it exposes
no focus method) the toggle is focused instead; but when the recorded
element has a focus method and can no longer receive focus, the focus
call is a DOM no-op — focus does not move and in particular the toggle
is *not* focused. -/
theorem claim_C3_close_focus_restore (c : Closure) (d : Dom) (h : d.navOpen = true) :
    (∀ e, c.lastFocused = some e → e.hasFocusFn = true → e.canReceiveFocus = true →
      (closeDrawer c d).2.focused = some e) ∧
    (∀ e, c.lastFocused = some e → e.hasFocusFn = true → e.canReceiveFocus = false →
      (closeDrawer c d).2.focused = d.focused) ∧
    (∀ e, c.lastFocused = some e → e.hasFocusFn = false → d.toggle.canReceiveFocus = true →
      (closeDrawer c d).2.focused = some d.toggle) ∧
    (c.lastFocused = none → d.toggle.canReceiveFocus = true →
      (closeDrawer c d).2.focused = some d.toggle) := by
  refine ⟨?_, ?_, ?_, ?_⟩
  · intro e he hfn hcr
    simp [closeDrawer, focusElem, h, he, hfn, hcr]
  · intro e he hfn hcr
    simp [closeDrawer, focusElem, h, he, hfn, hcr]
  · intro e he hfn hcr
    simp [closeDrawer, focusElem, h, he, hfn, hcr]
  · intro he hcr
    simp [closeDrawer, focusElem, h, he, hcr]

/-- An open drawer whose recorded pre-open focus element has since been
removed from the document (it keeps its `.focus` method but cannot
receive focus any more). -/
def staleDom : Dom :=
  { navOpen := true, ariaHidden := "false", ariaExpanded := "true",
    backdropHidden := false, focused := some linkElem,
    drawerEls := [linkElem], toggle := toggleElem, closeBtn := closeBtnElem }

def staleClosure : Closure := { lastFocused := some staleElem, keydownInstalled := true }

/-- C3 counterexample: closing with a recorded element that is no longer
focusable neither restores focus to it nor moves focus to the toggle
button — the claim's "otherwise focus moves to the toggle button" fails,
because the code only checks `typeof lastFocused.focus === "function"`,
which holds for any element, detached or not. -/
theorem claim_C3_counterexample :
    staleDom.navOpen = true ∧
    staleClosure.lastFocused = some staleElem ∧
    staleElem.hasFocusFn = true ∧
    staleElem.canReceiveFocus = false ∧
    (closeDrawer staleClosure staleDom).2.navOpen = false ∧
    (closeDrawer staleClosure staleDom).2.focused ≠ staleClosure.lastFocused ∧
    (closeDrawer staleClosure staleDom).2.focused ≠ some staleDom.toggle := by
  decide

theorem claim_C3_witness :
    (closeDrawer staleClosure staleDom).2.focused = staleDom.focused ∧
    (closeDrawer { lastFocused := none, keydownInstalled := true } staleDom).2.focused
      = some staleDom.toggle :=
  ⟨(claim_C3_close_focus_restore staleClosure staleDom rfl).2.1 staleElem rfl rfl rfl,
   (claim_C3_close_focus_restore { lastFocused := none, keydownInstalled := true }
      staleDom rfl).2.2.2 rfl rfl⟩

/-! ## 5. Init sequencer re-entry (`init` / `initMobileNav` run twice)

`init()` calls `enhanceButtonLinks()` and `initMobileNav()`.  Running
`enhanceButtonLinks` again is harmless (idempotence).  Running
`initMobileNav` again, however, registers a *second* toggle click
listener with its own closure; a single toggle click then runs both
listeners in registration order, the second reading the `aria-expanded`
value just written by the first. -/

/-- One toggle click dispatched to the listeners of `n` `initMobileNav`
runs, in registration order, threading the DOM state through. -/
def dispatchToggleClick : List Closure → Dom → List Closure × Dom
  | [], d => ([], d)
  | c :: cs, d =>
    let r := toggleClick c d
    let rr := dispatchToggleClick cs r.2
    (r.1 :: rr.1, rr.2)

/-- The toggle click listeners registered by `n` runs of `initMobileNav`:
each run contributes a fresh closure (`lastFocused = null`, keydown not
attached). -/
def initClosures (n : Nat) : List Closure :=
  List.replicate n { lastFocused := none, keydownInstalled := false }

theorem toggleClick_navOpen (c : Closure) (d : Dom) (h : wellFormed d) :
    (toggleClick c d).2.navOpen = !d.navOpen := by
  unfold toggleClick
  by_cases he : d.ariaExpanded = "true"
  · have hopen : d.navOpen = true := h.2.1.mpr he
    rw [if_pos he, navOpen_closeDrawer c d hopen]
    simp [hopen]
  · have hclosed : d.navOpen = false := by
      cases hno : d.navOpen with
      | false => rfl
      | true => exact absurd (h.2.1.mp hno) he
    rw [if_neg he, navOpen_openDrawer c d hclosed]
    simp [hclosed]

/-- C4 (amended): the link enhancement is safe to run any number of
times, but the drawer setup is not: after one `initMobileNav` run a
toggle click toggles the drawer, while after two runs the second
listener immediately reverses the first — a toggle click leaves
`nav-open` exactly where it was. -/
theorem claim_C4_setup_reentry (a : Anchor) (d : Dom) (h : wellFormed d) :
    enhanceAnchor (enhanceAnchor a) = enhanceAnchor a ∧
    (dispatchToggleClick (initClosures 1) d).2.navOpen = !d.navOpen ∧
    (dispatchToggleClick (initClosures 2) d).2.navOpen = d.navOpen := by
  refine ⟨enhanceAnchor_idem a, ?_, ?_⟩
  · show (toggleClick { lastFocused := none, keydownInstalled := false } d).2.navOpen
      = !d.navOpen
    exact toggleClick_navOpen _ d h
  · show (toggleClick { lastFocused := none, keydownInstalled := false }
      (toggleClick { lastFocused := none, keydownInstalled := false } d).2).2.navOpen
      = d.navOpen
    rw [toggleClick_navOpen _ _ (wf_toggleClick _ d h), toggleClick_navOpen _ d h,
      Bool.not_not]

/-- C4 counterexample: on a closed, consistent drawer DOM, a toggle click
opens the drawer after a single `initMobileNav` run but leaves it closed
after two runs — the doubly-initialized page behaves observably
differently from the singly-initialized one. -/
theorem claim_C4_counterexample :
    (dispatchToggleClick (initClosures 1) closedDom).2.navOpen = true ∧
    (dispatchToggleClick (initClosures 2) closedDom).2.navOpen = false := by
  decide

theorem claim_C4_witness :
    wellFormed closedDom ∧
    enhanceAnchor (enhanceAnchor sameOriginBtn) = enhanceAnchor sameOriginBtn ∧
    (dispatchToggleClick (initClosures 1) closedDom).2.navOpen = !closedDom.navOpen ∧
    (dispatchToggleClick (initClosures 2) closedDom).2.navOpen = closedDom.navOpen := by
  have h := claim_C4_setup_reentry sameOriginBtn closedDom (by decide)
  exact ⟨by decide, h.1, h.2.1, h.2.2⟩

end Site
